import Mathlib

/-
Shallow embedding of the MathWorks course automation scripts
(src/main.py, src/task_automator.py, src/utils.py, src/auth_handler.py,
src/config.py).

Browser effects are modelled by environment functions: an element lookup
environment maps a locator strategy and a selector string to the outcome
the browser reports for that selector (a found element, a timeout, a raised
exception), while click, paste and task-processing outcomes are
boolean-valued functions of the attempt index or the 1-based task index.
Sleeps and log statements, which have no observable effect on control flow
or return values, are omitted.  Functions whose only observable behaviour
is their return value and the order of the browser phases they attempt are
embedded together with an explicit event trace.
-/

/-- Locator strategies used by the scripts: selenium By.XPATH and
By.CSS_SELECTOR are the only two strategies ElementFinder ever passes. -/
inductive By where
  | xpath
  | cssSelector
deriving DecidableEq

/-- Strategy chosen for one selector string: ElementFinder treats a selector
that starts with // as an XPath expression and every other selector as a CSS
selector (src/utils.py lines 46, 77, 105). -/
def selBy (s : String) : By :=
  if s.startsWith "//" then By.xpath else By.cssSelector

/-- ElementFinder.find_element_by_selectors (src/utils.py lines 31-60): try the
selectors in list order; a selector on which the wait times out (environment
answers none) is skipped, the first selector the environment resolves to an
element is returned; if the list is exhausted the function returns None. -/
def find_element_by_selectors {α : Type} (env : By → String → Option α) :
    List String → Option α
  | [] => none
  | s :: rest =>
    match env (selBy s) s with
    | some e => some e
    | none => find_element_by_selectors env rest

/-- ElementFinder.find_clickable_element_by_selectors (src/utils.py lines
62-91): identical control flow to find_element_by_selectors, with the
clickability expected condition folded into the environment. -/
def find_clickable_element_by_selectors {α : Type} (env : By → String → Option α) :
    List String → Option α
  | [] => none
  | s :: rest =>
    match env (selBy s) s with
    | some e => some e
    | none => find_clickable_element_by_selectors env rest

/-- ElementFinder.find_multiple_elements_by_selectors (src/utils.py lines
93-117): try the selectors in list order; a selector whose lookup raises
(environment answers error) or returns an empty list is skipped, the first
non-empty element list is returned; otherwise the empty list is returned. -/
def find_multiple_elements_by_selectors {α : Type}
    (env : By → String → Except Unit (List α)) : List String → List α
  | [] => []
  | s :: rest =>
    match env (selBy s) s with
    | Except.error _ => find_multiple_elements_by_selectors env rest
    | Except.ok es =>
      if es.isEmpty then find_multiple_elements_by_selectors env rest else es

/-- Attempt loop of ActionHelper.safe_click (src/utils.py lines 137-148):
fuel counts remaining attempts, the second argument is the index of the
current attempt, and click gives the outcome of each attempt. -/
def safe_click_go (click : Nat → Bool) : Nat → Nat → Bool
  | 0, _ => false
  | n + 1, i => if click i then true else safe_click_go click n (i + 1)

/-- ActionHelper.safe_click (src/utils.py lines 126-150): scroll, sleep and
click up to retries times (the Python parameter default is retries = 3);
return True on the first attempt whose click does not raise, and False once
every attempt has failed.  The per-attempt sleep has no observable effect
and is omitted. -/
def safe_click (click : Nat → Bool) (retries : Nat) : Bool :=
  safe_click_go click retries 0

/-- Accumulator loop of ActionHelper.extract_text_from_elements
(src/utils.py lines 190-198): each element is either none (reading its text
raised, the element is skipped) or some raw text; the stripped text is
appended when it is non-empty and not already collected. -/
def extractLines : List (Option String) → List String → List String
  | [], acc => acc
  | none :: rest, acc => extractLines rest acc
  | some t :: rest, acc =>
    if t.trim ≠ "" ∧ t.trim ∉ acc then extractLines rest (acc ++ [t.trim])
    else extractLines rest acc

/-- ActionHelper.extract_text_from_elements (src/utils.py lines 180-202):
collect the kept lines and join them with a newline. -/
def extract_text_from_elements (texts : List (Option String)) : String :=
  String.intercalate "\n" (extractLines texts [])

/-- Discriminator for Except outcomes: true exactly on ok values. -/
def exceptIsOk {E A : Type} : Except E A → Bool
  | Except.ok _ => true
  | Except.error _ => false

/-- Attempt loop of the wrapper built by retry_on_failure (src/utils.py lines
253-263): fuel counts the remaining retries after the current attempt, the
second argument is the index of the current attempt, and attempts gives the
outcome of each call of the wrapped function.  With fuel zero the current
attempt is the last one: its ok value is returned and its exception is
re-raised; with positive fuel an exception leads to the next attempt. -/
def retry_go {E A : Type} (attempts : Nat → Except E A) : Nat → Nat → Except E A
  | 0, i => attempts i
  | n + 1, i =>
    match attempts i with
    | Except.ok a => Except.ok a
    | Except.error _ => retry_go attempts n (i + 1)

/-- Python truthiness of the expression (v or d) on an optional count:
None and 0 are falsy, every positive count stands for itself (src/utils.py
lines 250-251). -/
def pyOrNat (v : Option Nat) (d : Nat) : Nat :=
  match v with
  | none => d
  | some 0 => d
  | some (k + 1) => k + 1

namespace Config

/-- Config.ERROR_HANDLING max_retries (src/config.py line 115). -/
def max_retries : Nat := 3

/-- Config.ERROR_HANDLING retry_delay (src/config.py line 116). -/
def retry_delay : Nat := 2

/-- Config.ERROR_HANDLING continue_on_error (src/config.py line 117). -/
def continue_on_error : Bool := true

/-- Config.SELECTORS task_navigation task_elements (src/config.py lines
48-54). -/
def task_elements : List String :=
  ["[data-testid*=\"task\"]", ".task", "[class*=\"task\"]", ".exercise",
   "div[class*=\"task\"]"]

end Config

/-- Fallback task selectors of MathWorksTaskAutomator.find_tasks
(src/task_automator.py lines 38-42). -/
def fallback_task_selectors : List String :=
  ["//div[contains(text(), \x27Task\x27)]",
   "//button[contains(@class, \x27task\x27)]",
   "[role=\x27button\x27][aria-label*=\x27Task\x27]"]

/-- retry_on_failure (src/utils.py lines 238-265): the wrapper retries the
wrapped call with retries = (max_retries or Config.ERROR_HANDLING with key
max_retries), making at most retries + 1 calls. -/
def retry_on_failure {E A : Type} (attempts : Nat → Except E A)
    (maxRetries : Option Nat) : Except E A :=
  retry_go attempts (pyOrNat maxRetries Config.max_retries) 0

/-- MathWorksTaskAutomator.find_tasks (src/task_automator.py lines 23-46):
look for task elements with the configured selectors, then with the fallback
selectors when nothing was found. -/
def find_tasks {α : Type} (env : By → String → Except Unit (List α)) : List α :=
  let tasks := find_multiple_elements_by_selectors env Config.task_elements
  if tasks.isEmpty then find_multiple_elements_by_selectors env fallback_task_selectors
  else tasks

/-- Steps attempted by MathWorksTaskAutomator.process_single_task, in source
order (src/task_automator.py lines 274-297). -/
inductive TaskStep where
  | seeSolution
  | extractSolution
  | pasteSolution
  | submitSolution
deriving DecidableEq

/-- MathWorksTaskAutomator.process_single_task (src/task_automator.py lines
262-302), with the outcome of each sub-step abstracted: seeOk is the result
of click_see_solution, sol the string extract_solution_from_right_panel
returns (the empty string signals failure, matching the Python truthiness
test), pasteOk the result of paste_solution_to_left_panel and submitOk the
result of submit_solution.  The function returns the reported success of the
task together with the list of steps attempted, in order.  A failed
submission only logs a warning: the code comments that submission might not
always be required and still reports the task as completed. -/
def process_single_task (seeOk : Bool) (sol : String) (pasteOk submitOk : Bool) :
    Bool × List TaskStep :=
  if !seeOk then (false, [TaskStep.seeSolution])
  else if sol == "" then (false, [TaskStep.seeSolution, TaskStep.extractSolution])
  else if !pasteOk then
    (false, [TaskStep.seeSolution, TaskStep.extractSolution, TaskStep.pasteSolution])
  else
    (true, [TaskStep.seeSolution, TaskStep.extractSolution, TaskStep.pasteSolution,
            TaskStep.submitSolution])

/-- Phases attempted by MathWorksAutomator.automate_course (src/main.py lines
62-166): navigation, login, task discovery, then per-task processing and
navigation to the next task. -/
inductive Event where
  | navigate
  | login
  | findTasks
  | processTask (i : Nat)
  | moveNext (i : Nat)
deriving DecidableEq

/-- Per-task loop of automate_course (src/main.py lines 101-142).  Fuel
counts the remaining tasks and the second argument is the 1-based index of
the current task.  raisesBefore models the iteration raising before
process_single_task is reached (the is_displayed and is_enabled calls on
line 110; process_single_task and safe_click catch their own exceptions),
processOk the reported result of process_single_task, and moveRaises
move_to_next_task raising out of its retry wrapper.  The loop breaks on a
failure or an exception only when continue_on_error is false; the result of
the move step and of the task click are otherwise discarded by the source.
Returns the events of the loop and the number of successful tasks. -/
def processLoop (continueOnError : Bool) (raisesBefore processOk moveRaises : Nat → Bool) :
    Nat → Nat → List Event × Nat
  | 0, _ => ([], 0)
  | n + 1, i =>
    if raisesBefore i then
      if continueOnError then processLoop continueOnError raisesBefore processOk moveRaises n (i + 1)
      else ([], 0)
    else if !processOk i && !continueOnError then
      ([Event.processTask i], 0)
    else if n == 0 then
      ([Event.processTask i], if processOk i then 1 else 0)
    else if moveRaises i && !continueOnError then
      ([Event.processTask i, Event.moveNext i], if processOk i then 1 else 0)
    else
      let r := processLoop continueOnError raisesBefore processOk moveRaises n (i + 1)
      (Event.processTask i :: Event.moveNext i :: r.1,
       (if processOk i then 1 else 0) + r.2)

/-- Task-limiting step of automate_course (src/main.py lines 95-97): the
task list is truncated only when a positive limit was supplied. -/
def applyLimit {α : Type} (numTasks : Option Nat) (tasks : List α) : List α :=
  match numTasks with
  | none => tasks
  | some n => if 0 < n then tasks.take n else tasks

/-- Observable outcome of one automate_course run: the returned status, the
trace of attempted phases and the successful_tasks counter. -/
structure RunResult where
  retval : Bool
  trace : List Event
  successful : Nat
deriving DecidableEq

/-- MathWorksAutomator.automate_course (src/main.py lines 62-166): navigate,
return False on failure; log in, return False on failure; find tasks, return
False when none were found; otherwise limit the list, run the per-task loop
and return True exactly when the success count equals the task count or is
positive.  navOk and loginOk abstract the results of navigate_to_course and
AuthenticationHandler.login. -/
def automate_course {α : Type} (navOk loginOk : Bool) (tasks : List α)
    (numTasks : Option Nat) (continueOnError : Bool)
    (raisesBefore processOk moveRaises : Nat → Bool) : RunResult :=
  if !navOk then ⟨false, [Event.navigate], 0⟩
  else if !loginOk then ⟨false, [Event.navigate, Event.login], 0⟩
  else if tasks.isEmpty then ⟨false, [Event.navigate, Event.login, Event.findTasks], 0⟩
  else
    let ts := applyLimit numTasks tasks
    let res := processLoop continueOnError raisesBefore processOk moveRaises ts.length 1
    ⟨if res.2 = ts.length then true else if 0 < res.2 then true else false,
     Event.navigate :: Event.login :: Event.findTasks :: res.1,
     res.2⟩

/-- Indices of the tasks on which process_single_task was invoked during a
run, in invocation order, read off the trace. -/
def processedTasks (trace : List Event) : List Nat :=
  trace.filterMap (fun e =>
    match e with
    | Event.processTask i => some i
    | _ => none)

/-- Duplicate removal keeping the first occurrence of every string.  This is
the spec side formulation used to state the claim about
extract_text_from_elements; it is compared with the accumulator loop of the
source. -/
def dedupKeepFirst : List String → List String
  | [] => []
  | x :: xs => x :: dedupKeepFirst (xs.filter (fun y => decide (y ≠ x)))
termination_by l => l.length
decreasing_by
  simp only [List.length_cons]
  exact Nat.lt_succ_of_le (List.length_filter_le _ _)

/-- Spec side description of extract_text_from_elements: the newline join of
the stripped texts, keeping only non-empty ones, in first-occurrence order,
with exact duplicates included once. -/
def extractedTextSpec (texts : List String) : String :=
  String.intercalate "\n"
    (dedupKeepFirst ((texts.map String.trim).filter (fun s => decide (s ≠ ""))))

/-
Auxiliary lemmas about the element finders.
-/

theorem find_clickable_eq_find {α : Type} (env : By → String → Option α) :
    ∀ l, find_clickable_element_by_selectors env l = find_element_by_selectors env l := by
  intro l
  induction l with
  | nil => rfl
  | cons s rest ih =>
    simp only [find_element_by_selectors, find_clickable_element_by_selectors]
    cases env (selBy s) s <;> simp [ih]

theorem find_element_skips_failures {α : Type} (env : By → String → Option α)
    (s : String) (e : α) (post : List String) :
    ∀ pre, (∀ t ∈ pre, env (selBy t) t = none) → env (selBy s) s = some e →
      find_element_by_selectors env (pre ++ s :: post) = some e := by
  intro pre
  induction pre with
  | nil =>
    intro _ hs
    simp [find_element_by_selectors, hs]
  | cons t ts ih =>
    intro hpre hs
    have ht : env (selBy t) t = none := hpre t (List.mem_cons_self t ts)
    simp only [List.cons_append, find_element_by_selectors, ht]
    exact ih (fun u hu => hpre u (List.mem_cons_of_mem t hu)) hs

theorem find_element_none_of_all_fail {α : Type} (env : By → String → Option α) :
    ∀ l, (∀ s ∈ l, env (selBy s) s = none) →
      find_element_by_selectors env l = none := by
  intro l
  induction l with
  | nil => intro _; rfl
  | cons s rest ih =>
    intro h
    have hs : env (selBy s) s = none := h s (List.mem_cons_self s rest)
    simp only [find_element_by_selectors, hs]
    exact ih (fun u hu => h u (List.mem_cons_of_mem s hu))

theorem find_multiple_nil_of_all_fail {α : Type}
    (env : By → String → Except Unit (List α)) :
    ∀ l, (∀ s ∈ l, env (selBy s) s = Except.error () ∨ env (selBy s) s = Except.ok []) →
      find_multiple_elements_by_selectors env l = [] := by
  intro l
  induction l with
  | nil => intro _; rfl
  | cons s rest ih =>
    intro h
    have hrest := ih (fun u hu => h u (List.mem_cons_of_mem s hu))
    rcases h s (List.mem_cons_self s rest) with hs | hs <;>
      simp [find_multiple_elements_by_selectors, hs, hrest]

/-- C3: for every non-empty selector list, find_element_by_selectors and
find_clickable_element_by_selectors try the selectors in list order,
interpreting a selector that starts with // as an XPath expression and any
other selector as a CSS selector, and return the element located by the
first selector that matches; the selectors after the first match (post, and
whatever the environment would answer on them) never influence the result. -/
theorem find_element_by_selectors_first_match {α : Type}
    (env envClick : By → String → Option α)
    (pre post : List String) (s : String) (e eClick : α)
    (hpre : ∀ t ∈ pre, env (if t.startsWith "//" then By.xpath else By.cssSelector) t = none)
    (hs : env (if s.startsWith "//" then By.xpath else By.cssSelector) s = some e)
    (hpreClick : ∀ t ∈ pre,
      envClick (if t.startsWith "//" then By.xpath else By.cssSelector) t = none)
    (hsClick : envClick (if s.startsWith "//" then By.xpath else By.cssSelector) s
      = some eClick) :
    find_element_by_selectors env (pre ++ s :: post) = some e
    ∧ find_clickable_element_by_selectors envClick (pre ++ s :: post) = some eClick := by
  constructor
  · exact find_element_skips_failures env s e post pre hpre hs
  · rw [find_clickable_eq_find]
    exact find_element_skips_failures envClick s eClick post pre hpreClick hsClick

/-- Witness for C3 at a concrete environment: the first two selectors fail,
the third matches, a fourth is present after the match. -/
theorem find_element_by_selectors_first_match_witness :
    find_element_by_selectors
        (fun _ t => if t = "c" then some 5 else (none : Option Nat))
        (["//a", "b"] ++ "c" :: ["d"]) = some 5
    ∧ find_clickable_element_by_selectors
        (fun _ t => if t = "c" then some 6 else (none : Option Nat))
        (["//a", "b"] ++ "c" :: ["d"]) = some 6 :=
  find_element_by_selectors_first_match
    (fun _ t => if t = "c" then some 5 else none)
    (fun _ t => if t = "c" then some 6 else none)
    ["//a", "b"] ["d"] "c" 5 6
    (by decide) (by decide) (by decide) (by decide)

/-- C4: when no selector in the list matches any element, the finders fail
without raising: find_element_by_selectors and
find_clickable_element_by_selectors return None and
find_multiple_elements_by_selectors returns the empty list.  A non-matching
selector times out in the single-element finders (environment answers none)
and either raises or yields an empty list in the multi-element finder; the
embedding functions are total, mirroring the try/except blocks that keep
those failures from escaping. -/
theorem find_by_selectors_all_fail {α : Type} (env envClick : By → String → Option α)
    (envMulti : By → String → Except Unit (List α)) (selectors : List String)
    (h1 : ∀ s ∈ selectors,
      env (if s.startsWith "//" then By.xpath else By.cssSelector) s = none)
    (h2 : ∀ s ∈ selectors,
      envClick (if s.startsWith "//" then By.xpath else By.cssSelector) s = none)
    (h3 : ∀ s ∈ selectors,
      envMulti (if s.startsWith "//" then By.xpath else By.cssSelector) s = Except.error ()
      ∨ envMulti (if s.startsWith "//" then By.xpath else By.cssSelector) s = Except.ok []) :
    find_element_by_selectors env selectors = none
    ∧ find_clickable_element_by_selectors envClick selectors = none
    ∧ find_multiple_elements_by_selectors envMulti selectors = [] := by
  refine ⟨find_element_none_of_all_fail env selectors h1, ?_,
    find_multiple_nil_of_all_fail envMulti selectors h3⟩
  rw [find_clickable_eq_find]
  exact find_element_none_of_all_fail envClick selectors h2

/-- Witness for C4 at a concrete environment where every selector fails. -/
theorem find_by_selectors_all_fail_witness :
    find_element_by_selectors (fun _ _ => (none : Option Nat)) ["//x", "y"] = none
    ∧ find_clickable_element_by_selectors (fun _ _ => (none : Option Nat)) ["//x", "y"] = none
    ∧ find_multiple_elements_by_selectors
        (fun _ _ => (Except.error () : Except Unit (List Nat))) ["//x", "y"] = [] :=
  find_by_selectors_all_fail (fun _ _ => none) (fun _ _ => none)
    (fun _ _ => Except.error ()) ["//x", "y"]
    (fun _ _ => rfl) (fun _ _ => rfl) (fun _ _ => Or.inl rfl)

/-
Auxiliary lemmas about safe_click.
-/

theorem safe_click_go_iff (click : Nat → Bool) :
    ∀ n i, safe_click_go click n i = true ↔ ∃ j, i ≤ j ∧ j < i + n ∧ click j = true := by
  intro n
  induction n with
  | zero =>
    intro i
    simp only [safe_click_go]
    constructor
    · intro h; exact absurd h (by simp)
    · rintro ⟨j, hij, hj, _⟩; omega
  | succ n ih =>
    intro i
    simp only [safe_click_go]
    by_cases hc : click i = true
    · simp only [hc, if_true, true_iff]
      exact ⟨i, le_refl i, by omega, hc⟩
    · simp only [hc, if_false, Bool.false_eq_true, ih (i + 1)]
      constructor
      · rintro ⟨j, hij, hj, hcj⟩; exact ⟨j, by omega, by omega, hcj⟩
      · rintro ⟨j, hij, hj, hcj⟩
        refine ⟨j, ?_, by omega, hcj⟩
        rcases Nat.eq_or_lt_of_le hij with h | h
        · exact absurd (h ▸ hcj) hc
        · omega

theorem safe_click_go_ext (click g : Nat → Bool) :
    ∀ n i, (∀ j, i ≤ j → j < i + n → click j = g j) →
      safe_click_go click n i = safe_click_go g n i := by
  intro n
  induction n with
  | zero => intro i _; rfl
  | succ n ih =>
    intro i h
    have hi : click i = g i := h i (le_refl i) (by omega)
    simp only [safe_click_go, hi]
    by_cases hg : g i = true
    · simp [hg]
    · simp only [hg, if_false]
      exact ih (i + 1) (fun j h1 h2 => h j (by omega) (by omega))

/-- C5: safe_click attempts the click at most retries times (the source
default for retries is 3): its result only depends on the outcomes of
attempts 0 to retries - 1, it returns True exactly when some attempt in that
range succeeds (hence True as soon as the first success happens), and it
returns False, as a value rather than an exception, when every attempt
fails. -/
theorem safe_click_spec (click : Nat → Bool) (retries : Nat) :
    (safe_click click retries = true ↔ ∃ i, i < retries ∧ click i = true)
    ∧ (∀ g : Nat → Bool, (∀ i, i < retries → click i = g i) →
        safe_click click retries = safe_click g retries) := by
  constructor
  · rw [safe_click, safe_click_go_iff]
    constructor
    · rintro ⟨j, _, hj, hcj⟩; exact ⟨j, by omega, hcj⟩
    · rintro ⟨j, hj, hcj⟩; exact ⟨j, by omega, by omega, hcj⟩
  · intro g h
    exact safe_click_go_ext click g retries 0 (fun j _ h2 => h j (by omega))

/-- Witness for C5 at the default retry count: a click that succeeds on the
second attempt makes safe_click return True. -/
theorem safe_click_spec_witness :
    safe_click (fun i => decide (i = 1)) 3 = true :=
  (safe_click_spec (fun i => decide (i = 1)) 3).1.mpr ⟨1, by decide, by decide⟩

/-- C1 counterexample: the claim that a task is reported as completed
successfully only if the submission step succeeds is false: with the reveal,
extraction and paste steps succeeding and the submission failing,
process_single_task still reports success (src/task_automator.py lines
292-294 continue past a failed submission). -/
theorem process_single_task_submit_counterexample :
    ¬ (∀ (seeOk : Bool) (sol : String) (pasteOk submitOk : Bool),
        (process_single_task seeOk sol pasteOk submitOk).1 = true → submitOk = true) := by
  intro h
  have hc := h true "x = 1" true false (by decide)
  exact absurd hc (by decide)

/-- C1 (amended): process_single_task performs the per-task steps in source
order, reveal solution, extract it, paste it, submit it, stopping at the
first failed step; the task is reported as completed successfully exactly
when reveal, extraction and paste succeed, in which case submission is also
attempted, but the submission result does not affect the reported success. -/
theorem process_single_task_success_spec (seeOk : Bool) (sol : String)
    (pasteOk submitOk : Bool) :
    ((process_single_task seeOk sol pasteOk submitOk).1 = true
      ↔ (seeOk = true ∧ sol ≠ "" ∧ pasteOk = true))
    ∧ ((process_single_task seeOk sol pasteOk submitOk).2 = [TaskStep.seeSolution]
      ∨ (process_single_task seeOk sol pasteOk submitOk).2
          = [TaskStep.seeSolution, TaskStep.extractSolution]
      ∨ (process_single_task seeOk sol pasteOk submitOk).2
          = [TaskStep.seeSolution, TaskStep.extractSolution, TaskStep.pasteSolution]
      ∨ (process_single_task seeOk sol pasteOk submitOk).2
          = [TaskStep.seeSolution, TaskStep.extractSolution, TaskStep.pasteSolution,
             TaskStep.submitSolution])
    ∧ ((process_single_task seeOk sol pasteOk submitOk).1 = true →
        (process_single_task seeOk sol pasteOk submitOk).2
          = [TaskStep.seeSolution, TaskStep.extractSolution, TaskStep.pasteSolution,
             TaskStep.submitSolution])
    ∧ (process_single_task seeOk sol pasteOk true).1
        = (process_single_task seeOk sol pasteOk false).1 := by
  by_cases hsol : sol = "" <;> cases seeOk <;> cases pasteOk <;>
    simp [process_single_task, hsol]

/-- Witness for C1 (amended): with reveal, extraction and paste succeeding
and submission failing, the task reports success and every step, submission
included, was attempted. -/
theorem process_single_task_success_spec_witness :
    (process_single_task true "x = 1" true false).2
      = [TaskStep.seeSolution, TaskStep.extractSolution, TaskStep.pasteSolution,
         TaskStep.submitSolution] :=
  (process_single_task_success_spec true "x = 1" true false).2.2.1 (by decide)

/-
Auxiliary lemmas about the retry wrapper.
-/

theorem retry_go_ext {E A : Type} (attempts g : Nat → Except E A) :
    ∀ n i, (∀ j, i ≤ j → j ≤ i + n → attempts j = g j) →
      retry_go attempts n i = retry_go g n i := by
  intro n
  induction n with
  | zero =>
    intro i h
    simp only [retry_go]
    exact h i (le_refl i) (by omega)
  | succ n ih =>
    intro i h
    have hi : attempts i = g i := h i (le_refl i) (by omega)
    cases hgi : g i with
    | ok a => simp [retry_go, hi, hgi]
    | error e =>
      simp only [retry_go, hi, hgi]
      exact ih (i + 1) (fun j h1 h2 => h j (by omega) (by omega))

theorem retry_go_first_ok {E A : Type} (attempts : Nat → Except E A) :
    ∀ n i j a, i ≤ j → j ≤ i + n →
      (∀ k, i ≤ k → k < j → exceptIsOk (attempts k) = false) →
      attempts j = Except.ok a → retry_go attempts n i = Except.ok a := by
  intro n
  induction n with
  | zero =>
    intro i j a hij hj _ hja
    have hji : j = i := by omega
    subst hji
    simpa [retry_go] using hja
  | succ n ih =>
    intro i j a hij hj hfail hja
    rcases Nat.eq_or_lt_of_le hij with h | h
    · subst h
      simp [retry_go, hja]
    · have hi : exceptIsOk (attempts i) = false := hfail i (le_refl i) h
      cases hai : attempts i with
      | ok b => rw [hai] at hi; simp [exceptIsOk] at hi
      | error e =>
        simp only [retry_go, hai]
        exact ih (i + 1) j a (by omega) (by omega)
          (fun k h1 h2 => hfail k (by omega) h2) hja

theorem retry_go_all_fail {E A : Type} (attempts : Nat → Except E A) :
    ∀ n i, (∀ k, i ≤ k → k ≤ i + n → exceptIsOk (attempts k) = false) →
      retry_go attempts n i = attempts (i + n) := by
  intro n
  induction n with
  | zero => intro i _; simp [retry_go]
  | succ n ih =>
    intro i h
    have hi : exceptIsOk (attempts i) = false := h i (le_refl i) (by omega)
    cases hai : attempts i with
    | ok b => rw [hai] at hi; simp [exceptIsOk] at hi
    | error e =>
      simp only [retry_go, hai]
      rw [ih (i + 1) (fun k h1 h2 => h k (by omega) (by omega))]
      congr 1
      omega

/-- C10: the wrapper built by retry_on_failure examines at most the first
retries + 1 call outcomes (its result is unchanged under any change of the
outcomes after index retries), returns the result of the first call that
does not raise, and, when every attempt raises, propagates the outcome of
the last attempt, that is, it re-raises the last exception instead of
returning None; with the default of Config max_retries = 3 retries the
wrapper makes at most 4 calls. -/
theorem retry_on_failure_spec {E A : Type} (attempts : Nat → Except E A) (r : Nat) :
    (∀ g : Nat → Except E A, (∀ i, i ≤ r → attempts i = g i) →
        retry_go attempts r 0 = retry_go g r 0)
    ∧ (∀ j a, j ≤ r → (∀ i, i < j → exceptIsOk (attempts i) = false) →
        attempts j = Except.ok a → retry_go attempts r 0 = Except.ok a)
    ∧ ((∀ i, i ≤ r → exceptIsOk (attempts i) = false) → retry_go attempts r 0 = attempts r)
    ∧ retry_on_failure attempts none = retry_go attempts 3 0 := by
  refine ⟨?_, ?_, ?_, rfl⟩
  · intro g h
    exact retry_go_ext attempts g r 0 (fun j _ h2 => h j (by omega))
  · intro j a hj hfail hja
    exact retry_go_first_ok attempts r 0 j a (by omega) (by omega)
      (fun k _ h2 => hfail k h2) hja
  · intro h
    have hall := retry_go_all_fail attempts r 0 (fun k _ h2 => h k (by omega))
    simpa using hall

/-- Witness for C10: with the first two calls raising and the third
succeeding with value 7, the wrapper at the default retry count returns 7. -/
theorem retry_on_failure_spec_witness :
    retry_go (fun i => if i < 2 then Except.error i else Except.ok 7) 3 0
      = Except.ok 7 :=
  (retry_on_failure_spec (fun i => if i < 2 then Except.error i else Except.ok 7) 3).2.1
    2 7 (by decide) (by decide) rfl

/-
Auxiliary lemmas about text extraction.
-/

theorem decide_not_mem_append (acc : List String) (a : String) :
    (fun s => decide (s ∉ acc ++ [a]))
      = (fun s => decide (s ∉ acc) && decide (s ≠ a)) := by
  funext s
  by_cases h1 : s ∈ acc <;> by_cases h2 : s = a <;> simp [h1, h2]

theorem extractLines_eq (texts : List String) :
    ∀ acc : List String,
      extractLines (texts.map Option.some) acc
        = acc ++ dedupKeepFirst
            (((texts.map String.trim).filter (fun s => decide (s ≠ ""))).filter
              (fun s => decide (s ∉ acc))) := by
  induction texts with
  | nil => intro acc; simp [extractLines, dedupKeepFirst]
  | cons t ts ih =>
    intro acc
    simp only [List.map_cons, extractLines, List.filter_cons]
    by_cases h1 : t.trim = ""
    · rw [if_neg (by simp [h1])]
      rw [ih acc]
      simp [h1]
    · by_cases h2 : t.trim ∈ acc
      · rw [if_neg (by simp [h2])]
        rw [ih acc]
        simp [h1, h2]
      · rw [if_pos ⟨h1, h2⟩]
        rw [ih (acc ++ [t.trim])]
        rw [decide_not_mem_append acc t.trim, ← List.filter_filter]
        have hp : decide (t.trim ≠ "") = true := by simp [h1]
        have hq : decide (t.trim ∉ acc) = true := by simp [h2]
        simp only [hp, hq, if_pos, List.filter_cons, if_true]
        rw [dedupKeepFirst]
        simp only [List.append_assoc, List.singleton_append, List.filter_filter]
        have hfg : (fun a => decide (a ∉ acc) && (decide (a ≠ t.trim) && decide (a ≠ "")))
            = (fun a => decide (a ≠ t.trim) && (decide (a ∉ acc) && decide (a ≠ ""))) := by
          funext a
          exact Bool.and_left_comm _ _ _
        rw [hfg]

/-- C9: extract_text_from_elements returns the newline join of the stripped
element texts, keeping only the non-empty ones, in first-occurrence order,
with exact duplicates included once; when every element text strips to the
empty string the result is the empty string. -/
theorem extract_text_from_elements_spec (texts : List String) :
    extract_text_from_elements (texts.map Option.some) = extractedTextSpec texts
    ∧ ((∀ t ∈ texts, t.trim = "") →
        extract_text_from_elements (texts.map Option.some) = "") := by
  have h := extractLines_eq texts []
  have hfilter : ((texts.map String.trim).filter (fun s => decide (s ≠ ""))).filter
      (fun s => decide (s ∉ ([] : List String)))
      = (texts.map String.trim).filter (fun s => decide (s ≠ "")) := by
    simp
  constructor
  · rw [extract_text_from_elements, h, hfilter, extractedTextSpec]
    simp
  · intro hall
    rw [extract_text_from_elements, h, hfilter]
    have hnil : (texts.map String.trim).filter (fun s => decide (s ≠ "")) = [] := by
      rw [List.filter_eq_nil_iff]
      intro a ha
      rcases List.mem_map.mp ha with ⟨t, ht, rfl⟩
      simp [hall t ht]
    rw [hnil]
    simp [dedupKeepFirst]
    rfl

/-- Witness for C9: the hypothesis that every text strips to the empty
string holds for the empty element list, whose extraction yields the empty
string.  A non-empty witness is out of reach of kernel evaluation because
String.trim is defined by well-founded recursion. -/
theorem extract_text_from_elements_spec_witness :
    extract_text_from_elements (([] : List String).map Option.some) = "" :=
  (extract_text_from_elements_spec []).2 (by simp)

/-
Auxiliary lemmas about the per-task loop and automate_course.
-/

theorem processLoop_events_shape (continueOnError : Bool)
    (raisesBefore processOk moveRaises : Nat → Bool) :
    ∀ n i e, e ∈ (processLoop continueOnError raisesBefore processOk moveRaises n i).1 →
      (∃ j, e = Event.processTask j) ∨ (∃ j, e = Event.moveNext j) := by
  intro n
  induction n with
  | zero => intro i e he; simp [processLoop] at he
  | succ n ih =>
    intro i e he
    rw [processLoop] at he
    split at he
    · split at he
      · exact ih (i + 1) e he
      · simp at he
    · split at he
      · simp at he
        exact Or.inl ⟨i, he⟩
      · split at he
        · simp at he
          exact Or.inl ⟨i, he⟩
        · split at he
          · simp at he
            rcases he with he | he
            · exact Or.inl ⟨i, he⟩
            · exact Or.inr ⟨i, he⟩
          · simp only [List.mem_cons] at he
            rcases he with he | he | he
            · exact Or.inl ⟨i, he⟩
            · exact Or.inr ⟨i, he⟩
            · exact ih (i + 1) e he

theorem processedTasks_phaseHeader (L : List Event) :
    processedTasks (Event.navigate :: Event.login :: Event.findTasks :: L)
      = processedTasks L := by
  simp [processedTasks]

theorem processLoop_processed_all (raisesBefore processOk moveRaises : Nat → Bool)
    (hrb : ∀ i, raisesBefore i = false) :
    ∀ n i, processedTasks (processLoop true raisesBefore processOk moveRaises n i).1
      = List.range' i n := by
  intro n
  induction n with
  | zero => intro i; simp [processLoop, processedTasks, List.range']
  | succ n ih =>
    intro i
    cases n with
    | zero => rw [processLoop]; simp [hrb i, processedTasks, List.range']
    | succ m =>
      rw [processLoop]
      simp only [hrb i, Bool.false_eq_true, if_false, Bool.not_true, Bool.and_false,
        Nat.succ_ne_zero, beq_iff_eq, Bool.false_and]
      simp [processedTasks, List.range'] at ih ⊢
      exact ih (i + 1)

theorem processedTasks_cons_process (i : Nat) (t : List Event) :
    processedTasks (Event.processTask i :: t) = i :: processedTasks t := by
  simp [processedTasks]

theorem processedTasks_cons_move (i : Nat) (t : List Event) :
    processedTasks (Event.moveNext i :: t) = processedTasks t := by
  simp [processedTasks]

theorem processLoop_successful_count (continueOnError : Bool)
    (raisesBefore processOk moveRaises : Nat → Bool) :
    ∀ n i, (processLoop continueOnError raisesBefore processOk moveRaises n i).2
      = (processedTasks (processLoop continueOnError raisesBefore processOk moveRaises n i).1).countP
          processOk := by
  intro n
  induction n with
  | zero => intro i; simp [processLoop, processedTasks]
  | succ n ih =>
    intro i
    rw [processLoop]
    split
    · split
      · exact ih (i + 1)
      · simp [processedTasks]
    · split
      · next h3 =>
        have hpo : processOk i = false := by
          have h4 : processOk i = false ∧ continueOnError = false := by simpa using h3
          exact h4.1
        simp [processedTasks, List.countP_cons, hpo]
      · split
        · simp [processedTasks, List.countP_cons]
        · split
          · simp [processedTasks, List.countP_cons,
              processedTasks_cons_process, processedTasks_cons_move]
          · simp only [processedTasks_cons_process, processedTasks_cons_move,
              List.countP_cons, ih (i + 1)]
            cases processOk i <;> simp [Nat.add_comm]

theorem applyLimit_ne_nil {α : Type} (numTasks : Option Nat) (tasks : List α)
    (h : tasks ≠ []) : applyLimit numTasks tasks ≠ [] := by
  cases numTasks with
  | none => simpa [applyLimit] using h
  | some n =>
    by_cases hn : 0 < n
    · simp only [applyLimit, hn, if_true]
      cases tasks with
      | nil => exact absurd rfl h
      | cons a l =>
        cases n with
        | zero => omega
        | succ m => simp [List.take]
    · simpa [applyLimit, hn] using h

/-- C2: in every automate_course run the phases occur in the order navigate,
log in, locate tasks, process tasks: the trace is either the failed
navigation alone, or navigation followed by a failed login, or the three
phases followed only by task-processing and task-navigation events; and
whenever the login step reports failure, the task-locating phase and every
task-processing event are absent from the run. -/
theorem automate_course_phase_order {α : Type} (navOk loginOk : Bool) (tasks : List α)
    (numTasks : Option Nat) (continueOnError : Bool)
    (raisesBefore processOk moveRaises : Nat → Bool) (r : RunResult)
    (hr : r = automate_course navOk loginOk tasks numTasks continueOnError
        raisesBefore processOk moveRaises) :
    ((navOk = false ∧ r.trace = [Event.navigate])
      ∨ (navOk = true ∧ loginOk = false ∧ r.trace = [Event.navigate, Event.login]
          ∧ r.retval = false)
      ∨ (navOk = true ∧ loginOk = true ∧
          ∃ rest, r.trace = Event.navigate :: Event.login :: Event.findTasks :: rest
            ∧ ∀ e ∈ rest, (∃ i, e = Event.processTask i) ∨ (∃ i, e = Event.moveNext i)))
    ∧ (loginOk = false →
        Event.findTasks ∉ r.trace ∧ ∀ i, Event.processTask i ∉ r.trace) := by
  subst hr
  cases navOk with
  | false =>
    refine ⟨Or.inl ⟨rfl, by simp [automate_course]⟩, fun _ => ⟨?_, fun i => ?_⟩⟩ <;>
      simp [automate_course]
  | true =>
    cases loginOk with
    | false =>
      refine ⟨Or.inr (Or.inl ⟨rfl, rfl, by simp [automate_course],
        by simp [automate_course]⟩), fun _ => ⟨?_, fun i => ?_⟩⟩ <;>
        simp [automate_course]
    | true =>
      refine ⟨Or.inr (Or.inr ⟨rfl, rfl, ?_⟩), fun h => by simp at h⟩
      by_cases ht : tasks.isEmpty
      · exact ⟨[], by simp [automate_course, ht], by simp⟩
      · refine ⟨(processLoop continueOnError raisesBefore processOk moveRaises
            (applyLimit numTasks tasks).length 1).1, by simp [automate_course, ht], ?_⟩
        intro e he
        exact processLoop_events_shape continueOnError raisesBefore processOk moveRaises
          _ 1 e he

/-- Witness for C2 at a failed login over one task: the trace stops at the
login phase and contains no task events. -/
theorem automate_course_phase_order_witness :
    ((true = false ∧ (automate_course true false [0] none true (fun _ => false)
        (fun _ => false) (fun _ => false)).trace = [Event.navigate])
      ∨ (true = true ∧ false = false
          ∧ (automate_course true false [0] none true (fun _ => false)
              (fun _ => false) (fun _ => false)).trace = [Event.navigate, Event.login]
          ∧ (automate_course true false [0] none true (fun _ => false)
              (fun _ => false) (fun _ => false)).retval = false)
      ∨ (true = true ∧ false = true ∧
          ∃ rest, (automate_course true false [0] none true (fun _ => false)
              (fun _ => false) (fun _ => false)).trace
            = Event.navigate :: Event.login :: Event.findTasks :: rest
            ∧ ∀ e ∈ rest, (∃ i, e = Event.processTask i) ∨ (∃ i, e = Event.moveNext i)))
    ∧ (false = false →
        Event.findTasks ∉ (automate_course true false [0] none true (fun _ => false)
            (fun _ => false) (fun _ => false)).trace
        ∧ ∀ i, Event.processTask i ∉ (automate_course true false [0] none true
            (fun _ => false) (fun _ => false) (fun _ => false)).trace) :=
  automate_course_phase_order true false [0] none true (fun _ => false)
    (fun _ => false) (fun _ => false) _ rfl

/-- C6: with the configured continue_on_error value (true), and no iteration
raising outside process_single_task (which catches its own exceptions), the
main loop of automate_course invokes process_single_task on every task of
the possibly num_tasks-limited list, in list order, (tasks 1 up to the
length of the limited list), whatever the per-task processing outcomes are. -/
theorem automate_course_processes_all_tasks {α : Type} (tasks : List α)
    (numTasks : Option Nat) (raisesBefore processOk moveRaises : Nat → Bool)
    (r : RunResult)
    (hr : r = automate_course true true tasks numTasks Config.continue_on_error
        raisesBefore processOk moveRaises)
    (htasks : tasks ≠ []) (hrb : ∀ i, raisesBefore i = false) :
    processedTasks r.trace = List.range' 1 (applyLimit numTasks tasks).length := by
  subst hr
  have ht : tasks.isEmpty = false := by
    simpa [List.isEmpty_iff] using htasks
  rw [automate_course]
  simp only [Config.continue_on_error, Bool.not_true, Bool.false_eq_true, if_false, ht]
  rw [processedTasks_phaseHeader]
  exact processLoop_processed_all raisesBefore processOk moveRaises hrb
    (applyLimit numTasks tasks).length 1

/-- Witness for C6: two tasks, the first failing, are both processed. -/
theorem automate_course_processes_all_tasks_witness :
    processedTasks (automate_course true true [10, 20] none Config.continue_on_error
        (fun _ => false) (fun i => decide (i = 2)) (fun _ => false)).trace
      = List.range' 1 (applyLimit none [10, 20]).length :=
  automate_course_processes_all_tasks [10, 20] none (fun _ => false)
    (fun i => decide (i = 2)) (fun _ => false) _ rfl (by decide) (fun _ => rfl)

/-- C7: when no task selector matches anything, that is, find_tasks returns
the empty list, automate_course reports failure by returning False and no
task-processing event occurs in the run. -/
theorem automate_course_no_tasks_found {α : Type}
    (env : By → String → Except Unit (List α)) (navOk loginOk : Bool)
    (numTasks : Option Nat) (continueOnError : Bool)
    (raisesBefore processOk moveRaises : Nat → Bool) (r : RunResult)
    (hr : r = automate_course navOk loginOk (find_tasks env) numTasks continueOnError
        raisesBefore processOk moveRaises)
    (hempty : find_tasks env = ([] : List α)) :
    r.retval = false ∧ processedTasks r.trace = [] := by
  subst hr
  rw [hempty]
  cases navOk <;> cases loginOk <;> simp [automate_course, processedTasks]

/-- Witness for C7: an environment on which every selector lookup raises
discovers no task, and the run fails without processing anything. -/
theorem automate_course_no_tasks_found_witness :
    (automate_course true true
        (find_tasks (fun _ _ => (Except.error () : Except Unit (List Nat))))
        none true (fun _ => false) (fun _ => false) (fun _ => false)).retval = false
    ∧ processedTasks (automate_course true true
        (find_tasks (fun _ _ => (Except.error () : Except Unit (List Nat))))
        none true (fun _ => false) (fun _ => false) (fun _ => false)).trace = [] :=
  automate_course_no_tasks_found (fun _ _ => Except.error ()) true true none true
    (fun _ => false) (fun _ => false) (fun _ => false) _ rfl (by decide)

/-- C8: when navigation and login succeed and the discovered task list is
non-empty, automate_course returns True exactly when at least one processed
task was completed successfully; in particular partial failure still returns
True and False is returned only when every processed task failed. -/
theorem automate_course_retval_iff_some_success {α : Type} (tasks : List α)
    (numTasks : Option Nat) (continueOnError : Bool)
    (raisesBefore processOk moveRaises : Nat → Bool) (r : RunResult)
    (hr : r = automate_course true true tasks numTasks continueOnError
        raisesBefore processOk moveRaises)
    (htasks : tasks ≠ []) :
    (r.retval = true ↔ ∃ i ∈ processedTasks r.trace, processOk i = true) := by
  subst hr
  have ht : tasks.isEmpty = false := by
    simpa [List.isEmpty_iff] using htasks
  have hlen : 0 < (applyLimit numTasks tasks).length :=
    List.length_pos.mpr (applyLimit_ne_nil numTasks tasks htasks)
  rw [automate_course]
  simp only [Bool.not_true, Bool.false_eq_true, if_false, ht]
  rw [processedTasks_phaseHeader]
  rw [processLoop_successful_count continueOnError raisesBefore processOk moveRaises
    (applyLimit numTasks tasks).length 1]
  rw [← List.countP_pos_iff]
  split_ifs with h1 h2 <;> simp_all

/-- Witness for C8: a single task that fails to process makes the run return
False, matching the absence of a successfully processed task. -/
theorem automate_course_retval_iff_some_success_witness :
    ((automate_course true true [10] none true (fun _ => false) (fun _ => false)
        (fun _ => false)).retval = true
      ↔ ∃ i ∈ processedTasks (automate_course true true [10] none true (fun _ => false)
          (fun _ => false) (fun _ => false)).trace, (fun _ : Nat => false) i = true) :=
  automate_course_retval_iff_some_success [10] none true (fun _ => false)
    (fun _ => false) (fun _ => false) _ rfl (by decide)
